import Mathlib

/-!
Shallow embedding of `script.py` from akshaytrikha/availability-calendar.

The script mirrors busy blocks of the `"primary"` Google calendar into a
configured availability calendar: it fetches events in a time window
(`get_all_events`), deletes events from the availability calendar
(`delete_overlapping_events` / `delete_all_availability_events`), and creates
one `"Busy"` event per busy primary event (`create_busy_event`,
`sync_availability`).  The remote calendar provider is an external
collaborator; it is modelled here as a store mapping calendar ids to event
lists, with list/insert/delete operations following the spec's description of
the provider interface.
-/

namespace AvailCal

/-- Python compares strings lexicographically by code point; this is the
character comparison used at `script.py:117`. -/
def charLtB (a b : Char) : Bool := a.val < b.val

/-- Lexicographic strict order on character lists, as Python orders strings. -/
def charListLtB : List Char → List Char → Bool
  | [], [] => false
  | [], _ :: _ => true
  | _ :: _, [] => false
  | a :: as, b :: bs =>
    if charLtB a b then true
    else if charLtB b a then false
    else charListLtB as bs

/-- Python `a < b` on strings. -/
def pyLtB (a b : String) : Bool := charListLtB a.data b.data

/-- Python `a <= b` on strings (a total order, so `a <= b` iff `not (b < a)`). -/
def pyLeB (a b : String) : Bool := !(pyLtB b a)

/-- Return value of a Python function: `None` for a function body without a
`return` statement, or an integer. -/
inductive PyVal where
  | pyNone
  | pyInt (n : Nat)
deriving DecidableEq, Repr

/-- The `start`/`end` dictionary of a Google Calendar event: an optional
precise timestamp `dateTime`, an optional all-day `date`, and an optional
`timeZone` label (schema documented at `script.py:59`-`66`). -/
structure TimeField where
  dateTime : Option String := Option.none
  date : Option String := Option.none
  timeZone : Option String := Option.none
deriving DecidableEq, Repr

/-- A calendar event as the script reads and writes it: the provider-assigned
identifier, the fields the script touches (`summary`, `start`, `end`,
`transparency`), and the fields claim C6 asserts are absent from created
events (`attendees`, `description`, `sourceEventId`).  Ids are modelled as
naturals (the provider assigns opaque unique ids). -/
structure Event where
  id : Nat
  summary : Option String := Option.none
  start : TimeField := {}
  «end» : TimeField := {}
  transparency : Option String := Option.none
  attendees : Option (List String) := Option.none
  description : Option String := Option.none
  sourceEventId : Option String := Option.none
deriving DecidableEq, Repr

/-- Python `d.get("dateTime", d.get("date"))` (`script.py:113`, `190`):
the `dateTime` field when present, else the `date` field (possibly absent). -/
def timeVal (t : TimeField) : Option String := t.dateTime.orElse (fun _ => t.date)

/-- Extracted start bound of an event (`script.py:113`, `190`). -/
def startVal (e : Event) : Option String := timeVal e.start

/-- Extracted end bound of an event (`script.py:114`, `191`). -/
def endVal (e : Event) : Option String := timeVal e.«end»

/-- The time interval an event occupies, as the pair of extracted bounds. -/
def interval (e : Event) : Option String × Option String := (startVal e, endVal e)

/-- An event with its provider-assigned id erased: the observable content of
an event, used to compare calendar contents across runs that assign fresh ids. -/
def eraseId (e : Event) : Event := { e with id := 0 }

/-- Python `event.get("transparency", "") != "transparent"` (`script.py:189`). -/
def isBusy (e : Event) : Bool := decide ((e.transparency.getD "") ≠ "transparent")

/-- Modelled from the spec (§6): `config.py` is not part of this snapshot; it
supplies the mirror-calendar identifier, a configuration value distinct from
the literal `"primary"` used for the source calendar. -/
def AVAILABILITY_CALENDAR_ID : String := "availability"

/-- Modelled from the spec (§4.1, §6): the external provider's state, a store
of calendars (event lists keyed by calendar id) plus the counter from which
the provider assigns fresh event ids on insertion. -/
structure CalendarState where
  cals : String → List Event
  nextId : Nat

/-- Modelled from the spec (§4.1): an event's occurrence falls inside the
window `[tmin, tmax]` when its extracted interval meets the window; bounds are
compared as strings, as everywhere in this system. -/
def inWindow (tmin tmax : String) (e : Event) : Bool :=
  match startVal e, endVal e with
  | some s, some t => pyLeB s tmax && pyLeB tmin t
  | _, _ => false

/-- Modelled from the spec (§4.1): the provider's `events().list` call returns
the events of the requested calendar whose occurrence falls inside the window. -/
def listEvents (σ : CalendarState) (calendarId : String) (tmin tmax : String) :
    List Event :=
  (σ.cals calendarId).filter (inWindow tmin tmax)

/-- Modelled from the spec (§6): the provider's `events().delete` call removes
the event with the given id from the given calendar. -/
def deleteEvent (σ : CalendarState) (calendarId : String) (eventId : Nat) :
    CalendarState :=
  { σ with cals := fun c =>
      if c = calendarId then (σ.cals c).filter (fun e => decide (e.id ≠ eventId))
      else σ.cals c }

/-- Modelled from the spec (§6): the provider's `events().insert` call appends
the given body to the given calendar, under a fresh provider-assigned id. -/
def insertEvent (σ : CalendarState) (calendarId : String) (body : Event) :
    CalendarState :=
  { σ with
    cals := fun c =>
      if c = calendarId then σ.cals c ++ [{ body with id := σ.nextId }]
      else σ.cals c
    nextId := σ.nextId + 1 }

/-- Embeds `get_all_events` (`script.py:26`-`100`): fetch all events of a
calendar within the time range, via the provider's list call. -/
def get_all_events (σ : CalendarState) (calendar_id : String)
    (time_min time_max : String) : List Event :=
  listEvents σ calendar_id time_min time_max

/-- The overlap test of `script.py:117`:
`event_start <= end and event_end >= start` on the extracted string bounds.
Python raises a `TypeError` when a bound is missing (comparison with `None`);
the claims below only concern events whose bounds are present, so the missing
case is mapped to `false` here. -/
def overlapTest (e : Event) (start stop : String) : Bool :=
  match startVal e, endVal e with
  | some es, some ee => pyLeB es stop && pyLeB start ee
  | _, _ => false

/-- The events for which the loop of `delete_overlapping_events`
(`script.py:112`-`120`) issues a provider delete call, given the fetched
candidate list and the window bounds. -/
def overlappingDeleted (availability_events : List Event) (start stop : String) :
    List Event :=
  availability_events.filter (fun e => overlapTest e start stop)

/-- Embeds `delete_overlapping_events` (`script.py:103`-`120`): fetch the
events of `calendar_id` in the range, then delete each one that passes the
overlap test. -/
def delete_overlapping_events (σ : CalendarState) (calendar_id : String)
    (start stop : String) : CalendarState :=
  (get_all_events σ calendar_id start stop).foldl
    (fun σ' e =>
      if overlapTest e start stop then deleteEvent σ' calendar_id e.id else σ')
    σ

/-- The event body built by `create_busy_event` (`script.py:133`-`143`):
summary `"Busy"`, the given bounds as `dateTime` labelled `"UTC"`, and nothing
else (the `id` placeholder is overwritten by the provider on insertion). -/
def busyBody (start stop : Option String) : Event :=
  { id := 0
    summary := some "Busy"
    start := { dateTime := start, timeZone := some "UTC" }
    «end» := { dateTime := stop, timeZone := some "UTC" } }

/-- Embeds `create_busy_event` (`script.py:123`-`144`): insert the busy body
into the configured availability calendar. -/
def create_busy_event (σ : CalendarState) (start stop : Option String) :
    CalendarState :=
  insertEvent σ AVAILABILITY_CALENDAR_ID (busyBody start stop)

/-- Embeds `delete_all_availability_events` (`script.py:147`-`170`): fetch all
events of the availability calendar in the range and delete each one,
unconditionally.  The Python function has no `return` statement, so its value
is `None`. -/
def delete_all_availability_events (σ : CalendarState)
    (time_min time_max : String) : CalendarState × PyVal :=
  ((get_all_events σ AVAILABILITY_CALENDAR_ID time_min time_max).foldl
      (fun σ' e => deleteEvent σ' AVAILABILITY_CALENDAR_ID e.id) σ,
   PyVal.pyNone)

/-- Embeds `sync_availability` (`script.py:173`-`194`): fetch the primary
calendar's events in the range and create one busy availability event per
event not marked transparent.  The Python function has no `return` statement,
so its value is `None`. -/
def sync_availability (σ : CalendarState) (time_min time_max : String) :
    CalendarState × PyVal :=
  ((get_all_events σ "primary" time_min time_max).foldl
      (fun σ' e =>
        if isBusy e then create_busy_event σ' (startVal e) (endVal e) else σ')
      σ,
   PyVal.pyNone)

/-- Embeds the entry point (`script.py:197`-`209`): one clear phase over the
window followed by one sync phase over the same window. -/
def runCycle (σ : CalendarState) (now end_time : String) : CalendarState :=
  (sync_availability (delete_all_availability_events σ now end_time).1
      now end_time).1

/-- The delete loop of `script.py:164`-`170` run over an explicit list of
events: deletes each event of the list from the given calendar, in order. -/
def deleteSweep (calendarId : String) (l : List Event) (σ : CalendarState) :
    CalendarState :=
  l.foldl (fun σ' e => deleteEvent σ' calendarId e.id) σ

/-- The create loop of `script.py:187`-`194` run over an explicit list of
events: creates one busy availability event per busy event of the list. -/
def createSweep (l : List Event) (σ : CalendarState) : CalendarState :=
  l.foldl
    (fun σ' e =>
      if isBusy e then create_busy_event σ' (startVal e) (endVal e) else σ')
    σ

/-- The busy body derived from a source event, under a given provider id. -/
def mkBusyAt (n : Nat) (e : Event) : Event :=
  { busyBody (startVal e) (endVal e) with id := n }

/-- The events the create loop appends to the availability calendar when run
over the given list starting from provider id counter `n`. -/
def mkList : Nat → List Event → List Event
  | _, [] => []
  | n, e :: t => if isBusy e then mkBusyAt n e :: mkList (n + 1) t else mkList n t

/-- The observable (id-erased) mirror events the sync loop creates for a given
fetched source list: one busy body per event not marked transparent. -/
def mirroredEvents (l : List Event) : List Event :=
  (l.filter isBusy).map (fun e => busyBody (startVal e) (endVal e))

/-- Modelled from the spec (§7): a failed provider call raises
`ProviderError`. -/
inductive RunError where
  | providerError
deriving DecidableEq, Repr

/-- Modelled from the spec (§5, §7): which provider delete calls (by event id)
and insert calls (by inserted source event) fail with a `ProviderError`. -/
structure FaultModel where
  failDelete : Nat → Bool
  failInsert : Event → Bool

/-- The delete sweep of `delete_all_availability_events` under the fault
model: each provider delete call may raise, and a raised error propagates out
of the loop at once (`script.py:164`-`170`), leaving earlier deletions
committed. -/
def runDeletesF (fm : FaultModel) :
    List Event → CalendarState → CalendarState × Option RunError
  | [], σ => (σ, Option.none)
  | e :: t, σ =>
    if fm.failDelete e.id then (σ, some RunError.providerError)
    else runDeletesF fm t (deleteEvent σ AVAILABILITY_CALENDAR_ID e.id)

/-- The create sweep of `sync_availability` under the fault model: each
provider insert call may raise, and a raised error propagates out of the loop
at once (`script.py:187`-`194`), leaving earlier insertions committed. -/
def runCreatesF (fm : FaultModel) :
    List Event → CalendarState → CalendarState × Option RunError
  | [], σ => (σ, Option.none)
  | e :: t, σ =>
    if isBusy e then
      if fm.failInsert e then (σ, some RunError.providerError)
      else runCreatesF fm t (create_busy_event σ (startVal e) (endVal e))
    else runCreatesF fm t σ

/-- The entry point (`script.py:208`-`209`) under the fault model: an error
raised in the clear phase terminates the run before the sync phase starts; an
error raised in the sync phase terminates the run there.  No retry, no
rollback: the state at the moment of failure stands. -/
def runCycleF (fm : FaultModel) (σ : CalendarState) (tmin tmax : String) :
    CalendarState × Option RunError :=
  match runDeletesF fm (get_all_events σ AVAILABILITY_CALENDAR_ID tmin tmax) σ with
  | (σ₁, some err) => (σ₁, some err)
  | (σ₁, Option.none) => runCreatesF fm (get_all_events σ₁ "primary" tmin tmax) σ₁

/-- A concrete mirror event: a stale busy block sitting in the availability
calendar, with both bounds on the window edge. -/
def evA : Event :=
  { id := 0
    summary := some "Busy"
    start := { dateTime := some "b" }
    «end» := { dateTime := some "b" } }

/-- A concrete mirror event: a block a human added to the availability
calendar by hand. -/
def evB : Event :=
  { id := 1
    summary := some "Dentist"
    start := { dateTime := some "c" }
    «end» := { dateTime := some "d" } }

/-- A concrete source event explicitly marked opaque (busy). -/
def evOpaque : Event :=
  { id := 2
    summary := some "Meeting"
    transparency := some "opaque"
    start := { dateTime := some "c" }
    «end» := { dateTime := some "d" } }

/-- A concrete source event explicitly marked transparent (free). -/
def evTransparent : Event :=
  { id := 3
    summary := some "Focus"
    transparency := some "transparent"
    start := { dateTime := some "c" }
    «end» := { dateTime := some "d" } }

/-- A concrete all-day source event: no `dateTime`, only `date` fields. -/
def evAllDay : Event :=
  { id := 4
    summary := some "Trip"
    start := { date := some "2024-09-17" }
    «end» := { date := some "2024-09-18" } }

/-- A concrete provider state: three source events on the primary calendar and
two pre-existing events on the availability calendar. -/
def σW : CalendarState :=
  { cals := fun c =>
      if c = "primary" then [evOpaque, evTransparent, evAllDay]
      else if c = AVAILABILITY_CALENDAR_ID then [evA, evB]
      else []
    nextId := 5 }

/-- A concrete fault model: the provider delete call for event id 1 fails, and
nothing else does. -/
def fmW : FaultModel :=
  { failDelete := fun i => decide (i = 1)
    failInsert := fun _ => false }

lemma deleteEvent_cals_self (σ : CalendarState) (cal : String) (i : Nat) :
    (deleteEvent σ cal i).cals cal
      = (σ.cals cal).filter (fun e => decide (e.id ≠ i)) := by
  simp [deleteEvent]

lemma deleteEvent_cals_ne (σ : CalendarState) {c cal : String} (i : Nat)
    (h : c ≠ cal) : (deleteEvent σ cal i).cals c = σ.cals c := by
  simp [deleteEvent, h]

lemma deleteEvent_nextId (σ : CalendarState) (cal : String) (i : Nat) :
    (deleteEvent σ cal i).nextId = σ.nextId := rfl

lemma insertEvent_cals_self (σ : CalendarState) (cal : String) (b : Event) :
    (insertEvent σ cal b).cals cal = σ.cals cal ++ [{ b with id := σ.nextId }] := by
  simp [insertEvent]

lemma insertEvent_cals_ne (σ : CalendarState) {c cal : String} (b : Event)
    (h : c ≠ cal) : (insertEvent σ cal b).cals c = σ.cals c := by
  simp [insertEvent, h]

lemma deleteSweep_cons (cal : String) (e : Event) (t : List Event)
    (σ : CalendarState) :
    deleteSweep cal (e :: t) σ = deleteSweep cal t (deleteEvent σ cal e.id) := rfl

lemma deleteSweep_cals_self (cal : String) (l : List Event) (σ : CalendarState) :
    (deleteSweep cal l σ).cals cal
      = (σ.cals cal).filter (fun x => decide (x.id ∉ l.map Event.id)) := by
  induction l generalizing σ with
  | nil => simp [deleteSweep]
  | cons e t ih =>
    rw [deleteSweep_cons, ih, deleteEvent_cals_self, List.filter_filter]
    apply List.filter_congr
    intro x _
    by_cases h1 : x.id = e.id <;> by_cases h2 : x.id ∈ t.map Event.id <;>
      simp [h1, h2]

lemma deleteSweep_cals_ne (cal : String) (l : List Event) (σ : CalendarState)
    {c : String} (h : c ≠ cal) : (deleteSweep cal l σ).cals c = σ.cals c := by
  induction l generalizing σ with
  | nil => rfl
  | cons e t ih => rw [deleteSweep_cons, ih, deleteEvent_cals_ne _ _ h]

lemma deleteSweep_nextId (cal : String) (l : List Event) (σ : CalendarState) :
    (deleteSweep cal l σ).nextId = σ.nextId := by
  induction l generalizing σ with
  | nil => rfl
  | cons e t ih => rw [deleteSweep_cons, ih, deleteEvent_nextId]

lemma createSweep_cons (e : Event) (t : List Event) (σ : CalendarState) :
    createSweep (e :: t) σ
      = createSweep t
          (if isBusy e then create_busy_event σ (startVal e) (endVal e) else σ) := rfl

lemma create_busy_event_cals_avail (σ : CalendarState) (s t : Option String) :
    (create_busy_event σ s t).cals AVAILABILITY_CALENDAR_ID
      = σ.cals AVAILABILITY_CALENDAR_ID ++ [{ busyBody s t with id := σ.nextId }] :=
  insertEvent_cals_self σ AVAILABILITY_CALENDAR_ID (busyBody s t)

lemma create_busy_event_cals_ne (σ : CalendarState) (s t : Option String)
    {c : String} (h : c ≠ AVAILABILITY_CALENDAR_ID) :
    (create_busy_event σ s t).cals c = σ.cals c :=
  insertEvent_cals_ne σ (busyBody s t) h

lemma createSweep_cals_avail (l : List Event) (σ : CalendarState) :
    (createSweep l σ).cals AVAILABILITY_CALENDAR_ID
      = σ.cals AVAILABILITY_CALENDAR_ID ++ mkList σ.nextId l := by
  induction l generalizing σ with
  | nil => simp [createSweep, mkList]
  | cons e t ih =>
    rw [createSweep_cons]
    by_cases hb : isBusy e = true
    · rw [if_pos hb, ih, create_busy_event_cals_avail]
      show _ = _ ++ mkList σ.nextId (e :: t)
      rw [mkList, if_pos hb]
      have hn : (create_busy_event σ (startVal e) (endVal e)).nextId
          = σ.nextId + 1 := rfl
      rw [hn, List.append_assoc]
      rfl
    · rw [if_neg hb, ih]
      show _ = _ ++ mkList σ.nextId (e :: t)
      rw [mkList, if_neg hb]

lemma createSweep_cals_ne (l : List Event) (σ : CalendarState) {c : String}
    (h : c ≠ AVAILABILITY_CALENDAR_ID) : (createSweep l σ).cals c = σ.cals c := by
  induction l generalizing σ with
  | nil => rfl
  | cons e t ih =>
    rw [createSweep_cons]
    by_cases hb : isBusy e = true
    · rw [if_pos hb, ih, create_busy_event_cals_ne _ _ _ h]
    · rw [if_neg hb, ih]

lemma startVal_mkBusyAt (n : Nat) (e : Event) :
    startVal (mkBusyAt n e) = startVal e := by
  show timeVal { dateTime := startVal e, timeZone := some "UTC" } = startVal e
  cases h : startVal e <;> simp [timeVal, h, Option.orElse]

lemma endVal_mkBusyAt (n : Nat) (e : Event) :
    endVal (mkBusyAt n e) = endVal e := by
  show timeVal { dateTime := endVal e, timeZone := some "UTC" } = endVal e
  cases h : endVal e <;> simp [timeVal, h, Option.orElse]

lemma inWindow_mkBusyAt (tmin tmax : String) (n : Nat) (e : Event) :
    inWindow tmin tmax (mkBusyAt n e) = inWindow tmin tmax e := by
  unfold inWindow
  rw [startVal_mkBusyAt, endVal_mkBusyAt]

lemma interval_mkBusyAt (n : Nat) (e : Event) :
    interval (mkBusyAt n e) = interval e := by
  unfold interval
  rw [startVal_mkBusyAt, endVal_mkBusyAt]

lemma eraseId_mkBusyAt (n : Nat) (e : Event) :
    eraseId (mkBusyAt n e) = busyBody (startVal e) (endVal e) := rfl

lemma id_mkBusyAt (n : Nat) (e : Event) : (mkBusyAt n e).id = n := rfl

lemma mkList_mem {b : Event} {n : Nat} {l : List Event} (h : b ∈ mkList n l) :
    ∃ e m, e ∈ l ∧ isBusy e = true ∧ b = mkBusyAt m e := by
  induction l generalizing n with
  | nil => simp [mkList] at h
  | cons e t ih =>
    rw [mkList] at h
    by_cases hb : isBusy e = true
    · rw [if_pos hb] at h
      rcases List.mem_cons.mp h with h' | h'
      · exact ⟨e, n, List.mem_cons_self e t, hb, h'⟩
      · rcases ih h' with ⟨e', m, he', hb', hbe⟩
        exact ⟨e', m, List.mem_cons_of_mem e he', hb', hbe⟩
    · rw [if_neg hb] at h
      rcases ih h with ⟨e', m, he', hb', hbe⟩
      exact ⟨e', m, List.mem_cons_of_mem e he', hb', hbe⟩

lemma mkList_mem_ge {b : Event} {n : Nat} {l : List Event} (h : b ∈ mkList n l) :
    n ≤ b.id := by
  induction l generalizing n with
  | nil => simp [mkList] at h
  | cons e t ih =>
    rw [mkList] at h
    by_cases hb : isBusy e = true
    · rw [if_pos hb] at h
      rcases List.mem_cons.mp h with h' | h'
      · rw [h', id_mkBusyAt]
      · exact Nat.le_of_succ_le (ih h')
    · rw [if_neg hb] at h
      exact ih h

lemma mkList_map_eraseId (n : Nat) (l : List Event) :
    (mkList n l).map eraseId = mirroredEvents l := by
  induction l generalizing n with
  | nil => rfl
  | cons e t ih =>
    rw [mkList]
    by_cases hb : isBusy e = true
    · rw [if_pos hb, List.map_cons, eraseId_mkBusyAt, ih]
      show _ = mirroredEvents (e :: t)
      unfold mirroredEvents
      rw [List.filter_cons_of_pos hb, List.map_cons]
    · rw [if_neg hb, ih]
      show _ = mirroredEvents (e :: t)
      unfold mirroredEvents
      rw [List.filter_cons_of_neg (by simp [hb])]

lemma mkList_map_interval (n : Nat) (l : List Event) :
    (mkList n l).map interval = (l.filter isBusy).map interval := by
  induction l generalizing n with
  | nil => rfl
  | cons e t ih =>
    rw [mkList]
    by_cases hb : isBusy e = true
    · rw [if_pos hb, List.map_cons, interval_mkBusyAt, ih,
        List.filter_cons_of_pos hb, List.map_cons]
    · rw [if_neg hb, ih, List.filter_cons_of_neg (by simp [hb])]

lemma isBusy_eq_transparency (e : Event) :
    isBusy e = decide (e.transparency ≠ some "transparent") := by
  cases h : e.transparency <;> simp [isBusy, h]

lemma delete_all_availability_events_fst (σ : CalendarState) (a b : String) :
    (delete_all_availability_events σ a b).1
      = deleteSweep AVAILABILITY_CALENDAR_ID
          (get_all_events σ AVAILABILITY_CALENDAR_ID a b) σ := rfl

lemma sync_availability_fst (σ : CalendarState) (a b : String) :
    (sync_availability σ a b).1
      = createSweep (get_all_events σ "primary" a b) σ := rfl

lemma primary_ne_avail : "primary" ≠ AVAILABILITY_CALENDAR_ID := by decide

lemma mem_listEvents {σ : CalendarState} {c a b : String} {e : Event} :
    e ∈ listEvents σ c a b ↔ e ∈ σ.cals c ∧ inWindow a b e = true :=
  List.mem_filter

lemma runCycle_cals_avail (σ : CalendarState) (a b : String) :
    (runCycle σ a b).cals AVAILABILITY_CALENDAR_ID
      = ((σ.cals AVAILABILITY_CALENDAR_ID).filter
          (fun x =>
            decide (x.id ∉ (listEvents σ AVAILABILITY_CALENDAR_ID a b).map Event.id)))
        ++ mkList σ.nextId (listEvents σ "primary" a b) := by
  unfold runCycle
  rw [sync_availability_fst, delete_all_availability_events_fst,
    createSweep_cals_avail]
  have hprim : (deleteSweep AVAILABILITY_CALENDAR_ID
      (get_all_events σ AVAILABILITY_CALENDAR_ID a b) σ).cals "primary"
      = σ.cals "primary" :=
    deleteSweep_cals_ne _ _ _ primary_ne_avail
  have hfetch : get_all_events (deleteSweep AVAILABILITY_CALENDAR_ID
      (get_all_events σ AVAILABILITY_CALENDAR_ID a b) σ) "primary" a b
      = listEvents σ "primary" a b := by
    show listEvents _ "primary" a b = _
    unfold listEvents
    rw [hprim]
  rw [hfetch, deleteSweep_cals_self, deleteSweep_nextId]
  rfl

lemma runCycle_cals_ne (σ : CalendarState) (a b : String) {c : String}
    (h : c ≠ AVAILABILITY_CALENDAR_ID) : (runCycle σ a b).cals c = σ.cals c := by
  unfold runCycle
  rw [sync_availability_fst, delete_all_availability_events_fst,
    createSweep_cals_ne _ _ h, deleteSweep_cals_ne _ _ _ h]

lemma foldl_if_filter {α β : Type} (p : α → Bool) (g : β → α → β)
    (l : List α) (σ : β) :
    l.foldl (fun s e => if p e then g s e else s) σ = (l.filter p).foldl g σ := by
  induction l generalizing σ with
  | nil => rfl
  | cons e t ih =>
    by_cases hp : p e = true
    · rw [List.foldl_cons, if_pos hp, List.filter_cons_of_pos hp, List.foldl_cons,
        ih]
    · rw [List.foldl_cons, if_neg hp, List.filter_cons_of_neg (by simp [hp]), ih]

lemma delete_overlapping_events_eq (σ : CalendarState) (cal S T : String) :
    delete_overlapping_events σ cal S T
      = deleteSweep cal (overlappingDeleted (get_all_events σ cal S T) S T) σ :=
  foldl_if_filter (fun e => overlapTest e S T)
    (fun σ' e => deleteEvent σ' cal e.id) (get_all_events σ cal S T) σ

lemma runDeletesF_ok (fm : FaultModel) (l : List Event) (σ : CalendarState)
    (h : ∀ x ∈ l, fm.failDelete x.id = false) :
    runDeletesF fm l σ
      = (deleteSweep AVAILABILITY_CALENDAR_ID l σ, Option.none) := by
  induction l generalizing σ with
  | nil => rfl
  | cons e t ih =>
    have he := h e (List.mem_cons_self e t)
    rw [runDeletesF, he, deleteSweep_cons]
    simp only [Bool.false_eq_true, if_false]
    exact ih _ (fun x hx => h x (List.mem_cons_of_mem e hx))

lemma runDeletesF_fail (fm : FaultModel) (l₁ : List Event) (f : Event)
    (l₂ : List Event) (σ : CalendarState)
    (h1 : ∀ x ∈ l₁, fm.failDelete x.id = false)
    (hf : fm.failDelete f.id = true) :
    runDeletesF fm (l₁ ++ f :: l₂) σ
      = (deleteSweep AVAILABILITY_CALENDAR_ID l₁ σ,
         some RunError.providerError) := by
  induction l₁ generalizing σ with
  | nil =>
    rw [List.nil_append, runDeletesF, hf]
    rfl
  | cons e t ih =>
    have he := h1 e (List.mem_cons_self e t)
    rw [List.cons_append, runDeletesF, he, deleteSweep_cons]
    simp only [Bool.false_eq_true, if_false]
    exact ih _ (fun x hx => h1 x (List.mem_cons_of_mem e hx))

lemma runCreatesF_ok (fm : FaultModel) (l : List Event) (σ : CalendarState)
    (h : ∀ x ∈ l, isBusy x = true → fm.failInsert x = false) :
    runCreatesF fm l σ = (createSweep l σ, Option.none) := by
  induction l generalizing σ with
  | nil => rfl
  | cons e t ih =>
    rw [runCreatesF, createSweep_cons]
    by_cases hb : isBusy e = true
    · have he := h e (List.mem_cons_self e t) hb
      rw [if_pos hb, he, if_pos hb]
      simp only [Bool.false_eq_true, if_false]
      exact ih _ (fun x hx => h x (List.mem_cons_of_mem e hx))
    · rw [if_neg hb, if_neg hb]
      exact ih _ (fun x hx => h x (List.mem_cons_of_mem e hx))

lemma runCreatesF_fail (fm : FaultModel) (m₁ : List Event) (g : Event)
    (m₂ : List Event) (σ : CalendarState)
    (h1 : ∀ x ∈ m₁, isBusy x = true → fm.failInsert x = false)
    (hg : isBusy g = true) (hfg : fm.failInsert g = true) :
    runCreatesF fm (m₁ ++ g :: m₂) σ
      = (createSweep m₁ σ, some RunError.providerError) := by
  induction m₁ generalizing σ with
  | nil =>
    rw [List.nil_append, runCreatesF, if_pos hg, hfg]
    rfl
  | cons e t ih =>
    rw [List.cons_append, runCreatesF, createSweep_cons]
    by_cases hb : isBusy e = true
    · have he := h1 e (List.mem_cons_self e t) hb
      rw [if_pos hb, he, if_pos hb]
      simp only [Bool.false_eq_true, if_false]
      exact ih _ (fun x hx => h1 x (List.mem_cons_of_mem e hx))
    · rw [if_neg hb, if_neg hb]
      exact ih _ (fun x hx => h1 x (List.mem_cons_of_mem e hx))

/-- Claim C2: for every candidate event E fetched from the mirror calendar
and target window [S, T], the clear operation `delete_overlapping_events`
deletes E if and only if `E.start <= T` and `E.end >= S` under the
closed-interval string comparison; and the deletions it performs are exactly
the sweep over those overlapping events. -/
theorem C2_overlap_deletion (σ : CalendarState) (cal S T : String) (e : Event)
    (es ee : String) (he : e ∈ get_all_events σ cal S T)
    (hs : startVal e = some es) (ht : endVal e = some ee) :
    (e ∈ overlappingDeleted (get_all_events σ cal S T) S T
        ↔ pyLeB es T = true ∧ pyLeB S ee = true)
      ∧ delete_overlapping_events σ cal S T
          = deleteSweep cal (overlappingDeleted (get_all_events σ cal S T) S T) σ := by
  refine ⟨?_, delete_overlapping_events_eq σ cal S T⟩
  unfold overlappingDeleted
  rw [List.mem_filter]
  constructor
  · rintro ⟨-, htest⟩
    unfold overlapTest at htest
    rw [hs, ht] at htest
    exact Bool.and_eq_true_iff.mp htest
  · rintro ⟨h1, h2⟩
    refine ⟨he, ?_⟩
    unfold overlapTest
    rw [hs, ht]
    simp [h1, h2]

/-- Claim C2 witness: in the concrete state, the stale availability event
whose start and end both equal the window's upper bound "b" is fetched and is
deleted (boundary touch, closed-interval policy). -/
theorem C2_overlap_deletion_witness :
    evA ∈ overlappingDeleted
      (get_all_events σW AVAILABILITY_CALENDAR_ID "a" "b") "a" "b" :=
  (C2_overlap_deletion σW AVAILABILITY_CALENDAR_ID "a" "b" evA "b" "b"
      (by decide) (by decide) (by decide)).1.mpr (by decide)

/-- Claim C3: the sync operation creates one mirror event per fetched source
event whose `transparency` is not explicitly `"transparent"` — and none for
an event whose `transparency` is `"transparent"`; absent or `"opaque"`
transparency is always mirrored. -/
theorem C3_busy_filter (σ : CalendarState) (tmin tmax : String) :
    ((sync_availability σ tmin tmax).1.cals AVAILABILITY_CALENDAR_ID).map eraseId
      = (σ.cals AVAILABILITY_CALENDAR_ID).map eraseId
        ++ ((get_all_events σ "primary" tmin tmax).filter
              (fun e => decide (e.transparency ≠ some "transparent"))).map
            (fun e => busyBody (startVal e) (endVal e)) := by
  rw [sync_availability_fst, createSweep_cals_avail, List.map_append,
    mkList_map_eraseId]
  unfold mirroredEvents
  congr 1
  congr 1
  apply List.filter_congr
  intro e _
  exact isBusy_eq_transparency e

/-- Claim C4 counterexample: on a concrete state the clear operation deletes
two events yet returns `None`, not the count 2 (the Python function has no
`return` statement); so it does not return the count of deleted events. -/
theorem C4_counterexample :
    (delete_all_availability_events σW "0" "z").2 = PyVal.pyNone
      ∧ ((σW.cals AVAILABILITY_CALENDAR_ID).length
          - ((delete_all_availability_events σW "0" "z").1.cals
              AVAILABILITY_CALENDAR_ID).length) = 2
      ∧ (delete_all_availability_events σW "0" "z").2 ≠ PyVal.pyInt 2 :=
  ⟨rfl, by decide, by decide⟩

/-- Claim C4 amended: the clear operation and the sync operation perform
their deletions and creations but both return `None`; neither reports a
count. -/
theorem C4_amended_return_none (σ : CalendarState) (tmin tmax : String) :
    (delete_all_availability_events σ tmin tmax).2 = PyVal.pyNone
      ∧ (sync_availability σ tmin tmax).2 = PyVal.pyNone :=
  ⟨rfl, rfl⟩

/-- Claim C9: the clear operation invoked by the entry point deletes every
event returned by the list call on the mirror calendar unconditionally — the
surviving events are exactly those whose id was not fetched, a condition that
involves no overlap test, no transparency check, and no origin check. -/
theorem C9_clear_unconditional (σ : CalendarState) (tmin tmax : String) :
    (delete_all_availability_events σ tmin tmax).1.cals AVAILABILITY_CALENDAR_ID
        = (σ.cals AVAILABILITY_CALENDAR_ID).filter
            (fun x => decide (x.id ∉
              (get_all_events σ AVAILABILITY_CALENDAR_ID tmin tmax).map Event.id))
      ∧ ∀ e ∈ get_all_events σ AVAILABILITY_CALENDAR_ID tmin tmax,
          e.id ∉ ((delete_all_availability_events σ tmin tmax).1.cals
            AVAILABILITY_CALENDAR_ID).map Event.id := by
  constructor
  · rw [delete_all_availability_events_fst, deleteSweep_cals_self]
  · intro e he hmem
    rw [delete_all_availability_events_fst, deleteSweep_cals_self] at hmem
    rcases List.mem_map.mp hmem with ⟨x, hx, hxe⟩
    rcases List.mem_filter.mp hx with ⟨-, hdec⟩
    exact (of_decide_eq_true hdec) (hxe ▸ List.mem_map_of_mem Event.id he)

/-- Claim C9 witness: the human-added event in the concrete availability
calendar is fetched and its id is gone after the clear operation. -/
theorem C9_clear_unconditional_witness :
    evB.id ∉ ((delete_all_availability_events σW "0" "z").1.cals
      AVAILABILITY_CALENDAR_ID).map Event.id :=
  (C9_clear_unconditional σW "0" "z").2 evB (by decide)

/-- Claim C10: the sync operation never mutates the source calendar — the
`"primary"` calendar is unchanged, and more generally every calendar other
than the configured availability calendar is unchanged, because the only
writes it issues are insertions into the availability calendar. -/
theorem C10_sync_source_frame (σ : CalendarState) (tmin tmax : String) :
    (sync_availability σ tmin tmax).1.cals "primary" = σ.cals "primary"
      ∧ ∀ c : String, c ≠ AVAILABILITY_CALENDAR_ID →
          (sync_availability σ tmin tmax).1.cals c = σ.cals c := by
  constructor
  · rw [sync_availability_fst]
    exact createSweep_cals_ne _ _ primary_ne_avail
  · intro c hc
    rw [sync_availability_fst]
    exact createSweep_cals_ne _ _ hc

/-- Claim C10 witness: on the concrete state, a calendar distinct from the
availability calendar is untouched by a sync run. -/
theorem C10_sync_source_frame_witness :
    (sync_availability σW "0" "z").1.cals "primary" = σW.cals "primary" :=
  (C10_sync_source_frame σW "0" "z").2 "primary" (by decide)

/-- Claim C6: every mirror event created by the sync operation (a member of
the availability calendar afterwards that was not there before) has the fixed
title "Busy", the start and end bounds copied verbatim from the source event
as `dateTime` labelled with the `"UTC"` timezone, no attendees, no
description, and no reference back to the source event's identifier. -/
theorem C6_mirror_event_shape (σ : CalendarState) (tmin tmax : String)
    (b : Event)
    (hb : b ∈ (sync_availability σ tmin tmax).1.cals AVAILABILITY_CALENDAR_ID)
    (hnew : b ∉ σ.cals AVAILABILITY_CALENDAR_ID) :
    ∃ src, src ∈ get_all_events σ "primary" tmin tmax ∧ isBusy src = true
      ∧ b.summary = some "Busy"
      ∧ b.start.dateTime = startVal src ∧ b.start.timeZone = some "UTC"
      ∧ b.start.date = Option.none
      ∧ b.«end».dateTime = endVal src ∧ b.«end».timeZone = some "UTC"
      ∧ b.«end».date = Option.none
      ∧ b.attendees = Option.none ∧ b.description = Option.none
      ∧ b.sourceEventId = Option.none := by
  rw [sync_availability_fst, createSweep_cals_avail, List.mem_append] at hb
  rcases hb with h | h
  · exact absurd h hnew
  · rcases mkList_mem h with ⟨src, m, hsrc, hbusy, rfl⟩
    exact ⟨src, hsrc, hbusy, rfl, rfl, rfl, rfl, rfl, rfl, rfl, rfl, rfl, rfl⟩

/-- Claim C6 witness: the first event the sync run creates from the concrete
state has exactly the asserted shape. -/
theorem C6_mirror_event_shape_witness :
    ∃ src, src ∈ get_all_events σW "primary" "0" "z" ∧ isBusy src = true
      ∧ (mkBusyAt 5 evOpaque).summary = some "Busy"
      ∧ (mkBusyAt 5 evOpaque).start.dateTime = startVal src
      ∧ (mkBusyAt 5 evOpaque).start.timeZone = some "UTC"
      ∧ (mkBusyAt 5 evOpaque).start.date = Option.none
      ∧ (mkBusyAt 5 evOpaque).«end».dateTime = endVal src
      ∧ (mkBusyAt 5 evOpaque).«end».timeZone = some "UTC"
      ∧ (mkBusyAt 5 evOpaque).«end».date = Option.none
      ∧ (mkBusyAt 5 evOpaque).attendees = Option.none
      ∧ (mkBusyAt 5 evOpaque).description = Option.none
      ∧ (mkBusyAt 5 evOpaque).sourceEventId = Option.none :=
  C6_mirror_event_shape σW "0" "z" (mkBusyAt 5 evOpaque) (by decide) (by decide)

/-- Claim C7: a busy source event lacking `dateTime` fields but carrying
all-day `date` fields is still mirrored — the sync result contains a mirror
event built from those `date` values as the start and end inputs — rather
than being dropped. -/
theorem C7_allday_fallback (σ : CalendarState) (tmin tmax : String) (e : Event)
    (d1 d2 : String) (he : e ∈ get_all_events σ "primary" tmin tmax)
    (hbusy : isBusy e = true)
    (h1 : e.start.dateTime = Option.none) (h2 : e.start.date = some d1)
    (h3 : e.«end».dateTime = Option.none) (h4 : e.«end».date = some d2) :
    busyBody (some d1) (some d2)
      ∈ ((sync_availability σ tmin tmax).1.cals AVAILABILITY_CALENDAR_ID).map
          eraseId := by
  rw [sync_availability_fst, createSweep_cals_avail, List.map_append,
    mkList_map_eraseId]
  apply List.mem_append_right
  unfold mirroredEvents
  have hsv : startVal e = some d1 := by
    unfold startVal timeVal
    rw [h1, h2]
    rfl
  have hev : endVal e = some d2 := by
    unfold endVal timeVal
    rw [h3, h4]
    rfl
  rw [show busyBody (some d1) (some d2) = busyBody (startVal e) (endVal e) by
    rw [hsv, hev]]
  exact List.mem_map_of_mem _ (List.mem_filter.mpr ⟨he, hbusy⟩)

/-- Claim C7 witness: the concrete all-day trip event is mirrored from its
date fields. -/
theorem C7_allday_fallback_witness :
    busyBody (some "2024-09-17") (some "2024-09-18")
      ∈ ((sync_availability σW "0" "z").1.cals AVAILABILITY_CALENDAR_ID).map
          eraseId :=
  C7_allday_fallback σW "0" "z" evAllDay "2024-09-17" "2024-09-18"
    (by decide) (by decide) (by decide) (by decide) (by decide) (by decide)

/-- Claim C1: after one full cycle (clear phase then sync phase) over a
window, with no failure and no concurrent mutation, the intervals of the
mirror calendar's events within the window are exactly the intervals of the
busy source events within the window — one each, no duplicates, no leftover
stale events. -/
theorem C1_cycle_invariant (σ : CalendarState) (tmin tmax : String) :
    (((runCycle σ tmin tmax).cals AVAILABILITY_CALENDAR_ID).filter
        (inWindow tmin tmax)).map interval
      = (((σ.cals "primary").filter (inWindow tmin tmax)).filter isBusy).map
          interval := by
  rw [runCycle_cals_avail, List.filter_append, List.map_append]
  have h1 : (((σ.cals AVAILABILITY_CALENDAR_ID).filter
      (fun x => decide (x.id ∉
        (listEvents σ AVAILABILITY_CALENDAR_ID tmin tmax).map Event.id))).filter
      (inWindow tmin tmax)) = [] := by
    rw [List.filter_eq_nil_iff]
    intro x hx hwin
    rcases List.mem_filter.mp hx with ⟨hxa, hdec⟩
    exact (of_decide_eq_true hdec)
      (List.mem_map_of_mem Event.id (List.mem_filter.mpr ⟨hxa, hwin⟩))
  have h2 : ((mkList σ.nextId (listEvents σ "primary" tmin tmax)).filter
      (inWindow tmin tmax)) = mkList σ.nextId (listEvents σ "primary" tmin tmax) := by
    rw [List.filter_eq_self]
    intro b hb
    rcases mkList_mem hb with ⟨e, m, he, -, rfl⟩
    rw [inWindow_mkBusyAt]
    exact (List.mem_filter.mp he).2
  rw [h1, h2, mkList_map_interval, List.map_nil, List.nil_append]
  rfl

/-- Claim C5: for a fixed source snapshot and window, running the
clear-then-sync cycle twice yields the same mirror-calendar event set
(observed up to the provider-assigned ids, which are always fresh) as running
it once — no duplicate accumulation across the second run.  The hypothesis
states that the ids already present are ones the provider previously
assigned, i.e. below its fresh-id counter. -/
theorem C5_cycle_idempotent (σ : CalendarState) (tmin tmax : String)
    (hfresh : ∀ e ∈ σ.cals AVAILABILITY_CALENDAR_ID, e.id < σ.nextId) :
    ((runCycle (runCycle σ tmin tmax) tmin tmax).cals
        AVAILABILITY_CALENDAR_ID).map eraseId
      = ((runCycle σ tmin tmax).cals AVAILABILITY_CALENDAR_ID).map eraseId := by
  have hprim : (runCycle σ tmin tmax).cals "primary" = σ.cals "primary" :=
    runCycle_cals_ne σ tmin tmax primary_ne_avail
  have hP : listEvents (runCycle σ tmin tmax) "primary" tmin tmax
      = listEvents σ "primary" tmin tmax := by
    unfold listEvents
    rw [hprim]
  have havail := runCycle_cals_avail σ tmin tmax
  have hfetch : listEvents (runCycle σ tmin tmax) AVAILABILITY_CALENDAR_ID
      tmin tmax = mkList σ.nextId (listEvents σ "primary" tmin tmax) := by
    unfold listEvents
    rw [havail, List.filter_append]
    have ha : (((σ.cals AVAILABILITY_CALENDAR_ID).filter
        (fun x => decide (x.id ∉
          (listEvents σ AVAILABILITY_CALENDAR_ID tmin tmax).map Event.id))).filter
        (inWindow tmin tmax)) = [] := by
      rw [List.filter_eq_nil_iff]
      intro x hx hwin
      rcases List.mem_filter.mp hx with ⟨hxa, hdec⟩
      exact (of_decide_eq_true hdec)
        (List.mem_map_of_mem Event.id (List.mem_filter.mpr ⟨hxa, hwin⟩))
    have hb : ((mkList σ.nextId (listEvents σ "primary" tmin tmax)).filter
        (inWindow tmin tmax))
        = mkList σ.nextId (listEvents σ "primary" tmin tmax) := by
      rw [List.filter_eq_self]
      intro b hb
      rcases mkList_mem hb with ⟨e, m, he, -, rfl⟩
      rw [inWindow_mkBusyAt]
      exact (List.mem_filter.mp he).2
    rw [ha, hb, List.nil_append]
    rfl
  rw [runCycle_cals_avail (runCycle σ tmin tmax) tmin tmax, hP, hfetch, havail,
    List.filter_append]
  have hstale : (((σ.cals AVAILABILITY_CALENDAR_ID).filter
      (fun x => decide (x.id ∉
        (listEvents σ AVAILABILITY_CALENDAR_ID tmin tmax).map Event.id))).filter
      (fun x => decide (x.id ∉
        (mkList σ.nextId (listEvents σ "primary" tmin tmax)).map Event.id)))
      = (σ.cals AVAILABILITY_CALENDAR_ID).filter
          (fun x => decide (x.id ∉
            (listEvents σ AVAILABILITY_CALENDAR_ID tmin tmax).map Event.id)) := by
    rw [List.filter_eq_self]
    intro x hx
    rcases List.mem_filter.mp hx with ⟨hxa, -⟩
    have hlt := hfresh x hxa
    apply decide_eq_true
    intro hmem
    rcases List.mem_map.mp hmem with ⟨bb, hbb, hbid⟩
    have hge := mkList_mem_ge hbb
    omega
  have hkill : ((mkList σ.nextId (listEvents σ "primary" tmin tmax)).filter
      (fun x => decide (x.id ∉
        (mkList σ.nextId (listEvents σ "primary" tmin tmax)).map Event.id)))
      = [] := by
    rw [List.filter_eq_nil_iff]
    intro b hb hdec
    exact (of_decide_eq_true hdec) (List.mem_map_of_mem Event.id hb)
  rw [hstale, hkill, List.append_nil, List.map_append, List.map_append,
    mkList_map_eraseId, mkList_map_eraseId]

/-- Claim C5 witness: running the cycle twice on the concrete state leaves
the same observable availability events as running it once. -/
theorem C5_cycle_idempotent_witness :
    ((runCycle (runCycle σW "0" "z") "0" "z").cals
        AVAILABILITY_CALENDAR_ID).map eraseId
      = ((runCycle σW "0" "z").cals AVAILABILITY_CALENDAR_ID).map eraseId :=
  C5_cycle_idempotent σW "0" "z" (by decide)

/-- Claim C8: a provider failure aborts the run immediately with no local
retry and no rollback.  If the delete of event `f` fails after the deletes of
the prefix `l₁` succeeded, the run ends right there: the final state carries
exactly the deletions of `l₁` (they stand — no rollback), no later delete and
no create is attempted, and the error propagates.  If all deletes succeed and
the insert for busy event `g` fails after the prefix `m₁` was processed, the
run ends with exactly the committed deletions and the creations from `m₁`. -/
theorem C8_abort_on_failure (fm : FaultModel) (σ : CalendarState)
    (tmin tmax : String) :
    (∀ l₁ f l₂,
        get_all_events σ AVAILABILITY_CALENDAR_ID tmin tmax = l₁ ++ f :: l₂ →
        (∀ x ∈ l₁, fm.failDelete x.id = false) → fm.failDelete f.id = true →
        runCycleF fm σ tmin tmax
          = (deleteSweep AVAILABILITY_CALENDAR_ID l₁ σ,
             some RunError.providerError))
      ∧ (∀ m₁ g m₂,
          (∀ x ∈ get_all_events σ AVAILABILITY_CALENDAR_ID tmin tmax,
            fm.failDelete x.id = false) →
          get_all_events
              (deleteSweep AVAILABILITY_CALENDAR_ID
                (get_all_events σ AVAILABILITY_CALENDAR_ID tmin tmax) σ)
              "primary" tmin tmax = m₁ ++ g :: m₂ →
          (∀ x ∈ m₁, isBusy x = true → fm.failInsert x = false) →
          isBusy g = true → fm.failInsert g = true →
          runCycleF fm σ tmin tmax
            = (createSweep m₁
                (deleteSweep AVAILABILITY_CALENDAR_ID
                  (get_all_events σ AVAILABILITY_CALENDAR_ID tmin tmax) σ),
               some RunError.providerError)) := by
  constructor
  · intro l₁ f l₂ hsplit h1 hf
    unfold runCycleF
    rw [hsplit, runDeletesF_fail fm l₁ f l₂ σ h1 hf]
  · intro m₁ g m₂ hok hsplit h1 hg hfg
    unfold runCycleF
    rw [runDeletesF_ok fm _ σ hok]
    show runCreatesF fm _ _ = _
    rw [hsplit, runCreatesF_fail fm m₁ g m₂ _ h1 hg hfg]

/-- Claim C8 witness: in the concrete state, the delete of the second fetched
availability event fails, so the run stops with only the first deletion
committed and the sync phase never attempted. -/
theorem C8_abort_on_failure_witness :
    runCycleF fmW σW "0" "z"
      = (deleteSweep AVAILABILITY_CALENDAR_ID [evA] σW,
         some RunError.providerError) :=
  (C8_abort_on_failure fmW σW "0" "z").1 [evA] evB [] (by decide) (by decide)
    (by decide)

end AvailCal
